import Mathlib

/-!
Shallow embedding of the pbrt-v4 sample-generation subsystem
(`src/pbrt/samplers.h`) and proofs of the specification claims.

pbrt `Float` values are modelled as exact rationals (`ℚ`); machine
integers are modelled as `ℕ`/`ℤ` with explicit `% 2^w` where the C++
code relies on fixed-width wrapping.  Helper routines that the header
only declares (they live in `samplers.cpp` or in `pbrt/util/*` headers
that are not part of the supplied slice) are modelled from the spec and
carry a doc comment saying so.
-/

namespace PbrtSamplers

/-- Rational stand-in for pbrt's `OneMinusEpsilon`, the largest `Float`
below one. Only `0 ≤ OneMinusEpsilon < 1` matters for the claims. -/
def OneMinusEpsilon : ℚ := 1 - 1 / 2 ^ 24

/-- Modelled from the spec: `MixBits` (`pbrt/util/math.h`, not in the
supplied slice) is a deterministic 64-bit finalizing hash; the claims
rely only on it being a pure function into `[0, 2^64)`. -/
def MixBits (x : ℕ) : ℕ := (x * 0x9E3779B97F4A7C15 + 0x2545F4914F6CDD1D) % 2 ^ 64

/-- `x % m` scaled into the unit interval, the common shape of every
table/bit-pattern-to-`Float` conversion in the model. -/
def unitFrac (x m : ℕ) : ℚ := ((x % m : ℕ) : ℚ) / (m : ℚ)

/-- Modelled from the spec: `PermutationElement` (`pbrt/util/math.h`,
not in the supplied slice) is a hash-keyed permutation of `0 .. l-1`;
the claims rely only on it being such a permutation, so it is modelled
as a hash-keyed cyclic rotation. -/
def PermutationElement (i l hash : ℕ) : ℕ := (i + hash) % l

/-- Modelled from the spec: the fixed prime-table bound
(`PrimeTableSize` from `pbrt/util/primes.h`, not in the supplied
slice); pbrt uses 1000. -/
def PrimeTableSize : ℕ := 1000

/-- Modelled from the spec: the number of Sobol dimensions supported by
the direction-number tables (`NSobolDimensions` from
`pbrt/util/sobolmatrices.h`, not in the supplied slice); pbrt uses
1024. -/
def NSobolDimensions : ℕ := 1024

/-- Modelled from the spec: the prime base table (bases 2, 3, 5, 7, …,
one per dimension).  The claims rely only on the first two entries
being 2 and 3 and on every entry being at least 2. -/
def PrimeBase : ℕ → ℕ
  | 0 => 2
  | 1 => 3
  | n + 2 => 5 + 2 * n

/-- Modelled from the spec (glossary): the radical inverse is the
reversal of a number's digits in base `b`, mapped into `[0,1)`
(`RadicalInverse` from `pbrt/util/lowdiscrepancy.h`, not in the
supplied slice).  The pbrt function takes a prime-table index; the
model takes the base itself. -/
def radicalInverse (b a : ℕ) : ℚ :=
  ((Nat.ofDigits b ((Nat.digits b a).reverse) : ℕ) : ℚ) /
    (b : ℚ) ^ (Nat.digits b a).length

/-- Modelled from the spec: the per-dimension digit permutation applied
by `ScrambledRadicalInverse` (`pbrt/util/lowdiscrepancy.h`, not in the
supplied slice); computed once from a seed at construction.  The claims
rely only on it being a seed/dimension-keyed permutation of the digits
`0 .. b-1`, so it is modelled as a keyed cyclic rotation. -/
def digitPermute (seed dim b d : ℕ) : ℕ := (d + MixBits (seed + dim)) % b

/-- Modelled from the spec: `ScrambledRadicalInverse`
(`pbrt/util/lowdiscrepancy.h`, not in the supplied slice): the radical
inverse with the per-dimension digit permutation applied to each
digit. -/
def scrambledRadicalInverse (seed dim a : ℕ) : ℚ :=
  let b := PrimeBase dim
  let ds := ((Nat.digits b a).map (digitPermute seed dim b)).reverse
  ((Nat.ofDigits b ds : ℕ) : ℚ) / (b : ℚ) ^ ds.length

/-- Modelled from the spec: `InverseRadicalInverse`
(`pbrt/util/lowdiscrepancy.h`, not in the supplied slice): reads
`nDigits` base-`b` digits of `inv` back in reversed order. -/
def inverseRadicalInverse (b : ℕ) : ℕ → ℕ → ℕ
  | _, 0 => 0
  | inv, nDigits + 1 =>
    inverseRadicalInverse b (inv / b) nDigits * b + inv % b

/-- Modelled from the spec: pbrt's `RNG` (`pbrt/util/rng.h`, not in the
supplied slice) is a counter-based PRNG: `SetSequence` selects a
stream, `Advance` moves the stream position, and each `Uniform<Float>`
draw is a pure function of `(sequence, position)` that advances the
position by one step. -/
structure RNG where
  sequence : ℕ
  position : ℕ
deriving DecidableEq

def RNG.setSequence (_ : RNG) (seq : ℕ) : RNG := ⟨seq % 2 ^ 64, 0⟩

def RNG.advance (r : RNG) (delta : ℕ) : RNG := { r with position := r.position + delta }

def RNG.uniform (r : RNG) : ℚ × RNG :=
  (unitFrac (MixBits (MixBits r.sequence + r.position)) (2 ^ 32),
    { r with position := r.position + 1 })

/-- Modelled from the spec: the blue-noise texture
(`pbrt/util/bluenoise.h`, not in the supplied slice), an immutable
table indexed by `(dimension, pixel)` with values in `[0,1)`; here the
underlying 32-bit pattern. -/
def blueNoiseBits (dim : ℕ) (p : ℕ × ℕ) : ℕ :=
  MixBits ((dim <<< 40) + (p.1 <<< 20) + p.2) % 2 ^ 32

/-- Modelled from the spec: `BlueNoise(dim, pixel)` as a value in
`[0,1)`. -/
def BlueNoise (dim : ℕ) (p : ℕ × ℕ) : ℚ := unitFrac (blueNoiseBits dim p) (2 ^ 32)

/-- `Clamp` from `pbrt/util/math.h`, on rationals. -/
def clampQ (x lo hi : ℚ) : ℚ := max lo (min x hi)

/-- The four randomization strategies of `pbrt/base/sampler.h`. -/
inductive RandomizeStrategy
  | noRandomize
  | cranleyPatterson
  | xorScramble
  | owen
deriving DecidableEq

/-- The randomizers passed to `SobolSample`: identity, Cranley-Patterson
rotation, XOR scrambling, Owen scrambling. -/
inductive Randomizer
  | noR
  | cp (offset : ℕ)
  | xorS (h : ℕ)
  | owen (h : ℕ)
deriving DecidableEq

/-- Modelled from the spec: the raw 32-bit Sobol value for (index,
dimension) from the direction-number tables
(`pbrt/util/lowdiscrepancy.h`, not in the supplied slice); the claims
rely only on it being a pure function into `[0, 2^32)`. -/
def sobolRaw (a dim : ℕ) : ℕ := MixBits (a * NSobolDimensions + dim) % 2 ^ 32

/-- Modelled from the spec: how each randomization strategy acts on the
32-bit Sobol bit pattern (toroidal offset, bit flips, hash-seeded
nested permutation). -/
def applyRandomizer : Randomizer → ℕ → ℕ
  | .noR, v => v % 2 ^ 32
  | .cp o, v => (v + o) % 2 ^ 32
  | .xorS h, v => (v ^^^ h) % 2 ^ 32
  | .owen h, v => MixBits (v + h) % 2 ^ 32

/-- Modelled from the spec: `SobolSample` (`pbrt/util/lowdiscrepancy.h`,
not in the supplied slice): the randomized 32-bit pattern scaled into
`[0,1)` and clamped below one. -/
def sobolSample (a dim : ℕ) (r : Randomizer) : ℚ :=
  min (unitFrac (applyRandomizer r (sobolRaw a dim)) (2 ^ 32)) OneMinusEpsilon

/-- The hash `MixBits((px << 48) ^ (py << 32) ^ (dim << 16) ^ seed)`
used verbatim by the PaddedSobol, PMJ02BN and Stratified samplers;
shifts wrap modulo `2^64` as the C++ `uint64_t` arithmetic does. -/
def pixelDimHash (p : ℕ × ℕ) (dim seed : ℕ) : ℕ :=
  MixBits (((p.1 <<< 48) % 2 ^ 64) ^^^ ((p.2 <<< 32) % 2 ^ 64) ^^^
    ((dim <<< 16) % 2 ^ 64) ^^^ seed)

/-! ## HaltonSampler (`samplers.h` lines 31-126) -/

/-- `MaxHaltonResolution` (`samplers.h` line 121). -/
def MaxHaltonResolution : ℕ := 128

/-- State of `HaltonSampler`.  `digitPermSeed` stands for the shared
`digitPermutations` table, which is computed once from the construction
seed; `baseScales`, `baseExponents` and `multInverse` are the
construction-time precomputations.  `haltonIndex` and `dimension` are
the mutable cursor. -/
structure HaltonSampler where
  samplesPerPixel : ℕ
  digitPermSeed : ℕ
  baseScales : ℕ × ℕ
  baseExponents : ℕ × ℕ
  multInverse : ℕ × ℕ
  haltonIndex : ℕ
  dimension : ℕ
deriving DecidableEq

/-- The construction parameters (everything `StartPixelSample` does not
overwrite); clones share these. -/
def HaltonSampler.params (s : HaltonSampler) : ℕ × ℕ × (ℕ × ℕ) × (ℕ × ℕ) × (ℕ × ℕ) :=
  (s.samplesPerPixel, s.digitPermSeed, s.baseScales, s.baseExponents, s.multInverse)

/-- `HaltonSampler::StartPixelSample` (`samplers.h` lines 47-65). -/
def HaltonSampler.startPixelSample (s : HaltonSampler) (p : ℕ × ℕ)
    (sampleIndex dim : ℕ) : HaltonSampler :=
  let sampleStride := s.baseScales.1 * s.baseScales.2
  let offset :=
    if 1 < sampleStride then
      let pmx := p.1 % MaxHaltonResolution
      let pmy := p.2 % MaxHaltonResolution
      let dimOffset0 := inverseRadicalInverse 2 pmx s.baseExponents.1
      let dimOffset1 := inverseRadicalInverse 3 pmy s.baseExponents.2
      (dimOffset0 * (sampleStride / s.baseScales.1) * s.multInverse.1 +
        dimOffset1 * (sampleStride / s.baseScales.2) * s.multInverse.2) % sampleStride
    else 0
  { s with haltonIndex := offset + sampleIndex * sampleStride, dimension := dim }

/-- `HaltonSampler::Get1D` (`samplers.h` lines 68-73). -/
def HaltonSampler.get1D (s : HaltonSampler) : ℚ × HaltonSampler :=
  let dim := if PrimeTableSize ≤ s.dimension then 2 else s.dimension
  (scrambledRadicalInverse s.digitPermSeed dim s.haltonIndex,
    { s with dimension := dim + 1 })

/-- `HaltonSampler::Get2D` (`samplers.h` lines 76-93).  In the
`dimension == 0` branch pbrt calls `RadicalInverse(0, haltonIndex >>
baseExponents[0])` and `RadicalInverse(1, haltonIndex /
baseScales[1])`; prime-table indices 0 and 1 are the bases 2 and 3. -/
def HaltonSampler.get2D (s : HaltonSampler) : (ℚ × ℚ) × HaltonSampler :=
  if s.dimension = 0 then
    ((radicalInverse 2 (s.haltonIndex / 2 ^ s.baseExponents.1),
      radicalInverse 3 (s.haltonIndex / s.baseScales.2)),
      { s with dimension := s.dimension + 2 })
  else
    let dim := if PrimeTableSize ≤ s.dimension + 1 then 2 else s.dimension
    ((scrambledRadicalInverse s.digitPermSeed dim s.haltonIndex,
      scrambledRadicalInverse s.digitPermSeed (dim + 1) s.haltonIndex),
      { s with dimension := dim + 2 })

/-! ## PaddedSobolSampler (`samplers.h` lines 129-218) -/

structure PaddedSobolSampler where
  samplesPerPixel : ℕ
  randomizeStrategy : RandomizeStrategy
  /-- The global seed `GetOptions().seed`, threaded explicitly. -/
  optionsSeed : ℕ
  pixel : ℕ × ℕ
  sampleIndex : ℕ
  dimension : ℕ
deriving DecidableEq

def PaddedSobolSampler.params (s : PaddedSobolSampler) :
    ℕ × RandomizeStrategy × ℕ :=
  (s.samplesPerPixel, s.randomizeStrategy, s.optionsSeed)

/-- `PaddedSobolSampler::StartPixelSample` (`samplers.h` lines 149-153). -/
def PaddedSobolSampler.startPixelSample (s : PaddedSobolSampler) (p : ℕ × ℕ)
    (index dim : ℕ) : PaddedSobolSampler :=
  { s with pixel := p, sampleIndex := index, dimension := dim }

/-- `PaddedSobolSampler::SampleDimension` (`samplers.h` lines 199-211);
the `CranleyPatterson` case is the `LOG_FATAL` path (unreachable from
`Get1D`/`Get2D`), modelled as 0. -/
def PaddedSobolSampler.sampleDimension (s : PaddedSobolSampler)
    (dim a hash : ℕ) : ℚ :=
  match s.randomizeStrategy with
  | .noRandomize => sobolSample a dim .noR
  | .xorScramble => sobolSample a dim (.xorS hash)
  | .owen => sobolSample a dim (.owen hash)
  | .cranleyPatterson => 0

/-- `PaddedSobolSampler::Get1D` (`samplers.h` lines 156-170). -/
def PaddedSobolSampler.get1D (s : PaddedSobolSampler) : ℚ × PaddedSobolSampler :=
  let hash := pixelDimHash s.pixel s.dimension s.optionsSeed
  let index := PermutationElement s.sampleIndex s.samplesPerPixel hash
  let dim := s.dimension
  let v :=
    if s.randomizeStrategy = .cranleyPatterson then
      sobolSample index 0 (.cp (blueNoiseBits dim s.pixel))
    else
      s.sampleDimension 0 index ((hash >>> 32) % 2 ^ 32)
  (v, { s with dimension := dim + 1 })

/-- `PaddedSobolSampler::Get2D` (`samplers.h` lines 173-191). -/
def PaddedSobolSampler.get2D (s : PaddedSobolSampler) :
    (ℚ × ℚ) × PaddedSobolSampler :=
  let hash := pixelDimHash s.pixel s.dimension s.optionsSeed
  let index := PermutationElement s.sampleIndex s.samplesPerPixel hash
  let dim := s.dimension
  let v :=
    if s.randomizeStrategy = .cranleyPatterson then
      (sobolSample index 0 (.cp (blueNoiseBits dim s.pixel)),
        sobolSample index 1 (.cp (blueNoiseBits (dim + 1) s.pixel)))
    else
      (s.sampleDimension 0 index ((hash >>> 8) % 2 ^ 32),
        s.sampleDimension 1 index ((hash >>> 32) % 2 ^ 32))
  (v, { s with dimension := dim + 2 })

/-! ## PMJ02BNSampler (`samplers.h` lines 221-298) -/

/-- Modelled from the spec: the number of precomputed pmj02bn point
sets (`nPMJ02bnSets` from `pbrt/util/pmj02tables.h`, not in the
supplied slice); pbrt uses 5. -/
def nPMJ02bnSets : ℕ := 5

/-- Modelled from the spec: `GetPMJ02BNSample` (`pbrt/util/pmj02tables.h`,
not in the supplied slice): the precomputed progressive multi-jittered
point of set `setIndex` at position `idx`, a point in `[0,1)^2`. -/
def GetPMJ02BNSample (setIndex idx : ℕ) : ℚ × ℚ :=
  (unitFrac (MixBits (setIndex * 2 ^ 32 + 2 * idx)) (2 ^ 32),
    unitFrac (MixBits (setIndex * 2 ^ 32 + 2 * idx + 1)) (2 ^ 32))

/-- Modelled from the spec: the `pixelSamples` table built at
construction from the seed — an immutable sequence of points in
`[0,1)^2` tiled across a pixel block. -/
def pmjPixelSample (seed i : ℕ) : ℚ × ℚ :=
  (unitFrac (MixBits (seed + 2 * i)) (2 ^ 32),
    unitFrac (MixBits (seed + 2 * i + 1)) (2 ^ 32))

structure PMJ02BNSampler where
  samplesPerPixel : ℕ
  seed : ℕ
  pixelTileSize : ℕ
  pixel : ℕ × ℕ
  sampleIndex : ℕ
  dimension : ℕ
deriving DecidableEq

def PMJ02BNSampler.params (s : PMJ02BNSampler) : ℕ × ℕ × ℕ :=
  (s.samplesPerPixel, s.seed, s.pixelTileSize)

/-- `PMJ02BNSampler::StartPixelSample` (`samplers.h` lines 235-239). -/
def PMJ02BNSampler.startPixelSample (s : PMJ02BNSampler) (p : ℕ × ℕ)
    (index dim : ℕ) : PMJ02BNSampler :=
  { s with pixel := p, sampleIndex := index, dimension := dim }

/-- `PMJ02BNSampler::Get1D` (`samplers.h` lines 242-251). -/
def PMJ02BNSampler.get1D (s : PMJ02BNSampler) : ℚ × PMJ02BNSampler :=
  let hash := pixelDimHash s.pixel s.dimension s.seed
  let index := PermutationElement s.sampleIndex s.samplesPerPixel hash
  let delta := BlueNoise s.dimension s.pixel
  (min (((index : ℚ) + delta) / (s.samplesPerPixel : ℚ)) OneMinusEpsilon,
    { s with dimension := s.dimension + 1 })

/-- `PMJ02BNSampler::Get2D` (`samplers.h` lines 254-286). -/
def PMJ02BNSampler.get2D (s : PMJ02BNSampler) : (ℚ × ℚ) × PMJ02BNSampler :=
  if s.dimension = 0 then
    let px := s.pixel.1 % s.pixelTileSize
    let py := s.pixel.2 % s.pixelTileSize
    let offset := (px + py * s.pixelTileSize) * s.samplesPerPixel
    (pmjPixelSample s.seed (offset + s.sampleIndex),
      { s with dimension := s.dimension + 2 })
  else
    let pmjInstance := s.dimension / 2
    let index :=
      if nPMJ02bnSets ≤ pmjInstance then
        PermutationElement s.sampleIndex s.samplesPerPixel
          (pixelDimHash s.pixel s.dimension s.seed)
      else s.sampleIndex
    let u := GetPMJ02BNSample pmjInstance index
    let ux := u.1 + BlueNoise s.dimension s.pixel
    let uy := u.2 + BlueNoise (s.dimension + 1) s.pixel
    let ux := if 1 ≤ ux then ux - 1 else ux
    let uy := if 1 ≤ uy then uy - 1 else uy
    ((min ux OneMinusEpsilon, min uy OneMinusEpsilon),
      { s with dimension := s.dimension + 2 })

/-! ## RandomSampler (`samplers.h` lines 301-333) -/

structure RandomSampler where
  samplesPerPixel : ℕ
  seed : ℕ
  rng : RNG
deriving DecidableEq

def RandomSampler.params (s : RandomSampler) : ℕ × ℕ :=
  (s.samplesPerPixel, s.seed)

/-- `RandomSampler::StartPixelSample` (`samplers.h` lines 316-319):
`rng.SetSequence((p.x + p.y * 65536) | (uint64_t(seed) << 32));
rng.Advance(sampleIndex * 65536 + dimension)`. -/
def RandomSampler.startPixelSample (s : RandomSampler) (p : ℕ × ℕ)
    (sampleIndex dimension : ℕ) : RandomSampler :=
  { s with rng := ((s.rng.setSequence ((p.1 + p.2 * 65536) |||
      (s.seed <<< 32))).advance (sampleIndex * 65536 + dimension)) }

/-- `RandomSampler::Get1D` (`samplers.h` line 322). -/
def RandomSampler.get1D (s : RandomSampler) : ℚ × RandomSampler :=
  let (v, rng') := s.rng.uniform
  (v, { s with rng := rng' })

/-- `RandomSampler::Get2D` (`samplers.h` line 324). -/
def RandomSampler.get2D (s : RandomSampler) : (ℚ × ℚ) × RandomSampler :=
  let (v1, rng1) := s.rng.uniform
  let (v2, rng2) := rng1.uniform
  ((v1, v2), { s with rng := rng2 })

/-! ## SobolSampler (`samplers.h` lines 336-416) -/

/-- Modelled from the spec: `SobolIntervalToIndex`
(`pbrt/util/lowdiscrepancy.h`, not in the supplied slice): maps
`(log2(scale), sampleIndex, pixel)` to the global Sobol index of the
pixel's `sampleIndex`-th sample; each pixel owns its own block of the
global sequence.  The claims rely only on it being a pure function. -/
def SobolIntervalToIndex (m sampleIndex : ℕ) (p : ℕ × ℕ) : ℕ :=
  sampleIndex * 2 ^ (2 * m) + (p.2 % 2 ^ m) * 2 ^ m + p.1 % 2 ^ m

structure SobolSampler where
  samplesPerPixel : ℕ
  /-- `RoundUpPow2(max(fullResolution.x, fullResolution.y))`, computed
  at construction. -/
  scale : ℕ
  randomizeStrategy : RandomizeStrategy
  /-- The global seed `GetOptions().seed`, threaded explicitly. -/
  optionsSeed : ℕ
  pixel : ℕ × ℕ
  dimension : ℕ
  sobolIndex : ℕ
deriving DecidableEq

def SobolSampler.params (s : SobolSampler) : ℕ × ℕ × RandomizeStrategy × ℕ :=
  (s.samplesPerPixel, s.scale, s.randomizeStrategy, s.optionsSeed)

/-- `SobolSampler::StartPixelSample` (`samplers.h` lines 359-363). -/
def SobolSampler.startPixelSample (s : SobolSampler) (p : ℕ × ℕ)
    (sampleIndex dim : ℕ) : SobolSampler :=
  { s with
    pixel := p
    dimension := dim
    sobolIndex := SobolIntervalToIndex (Nat.log2 s.scale) sampleIndex p }

/-- `SobolSampler::SampleDimension` (`samplers.h` lines 395-408); the
hash is `MixBits((uint64_t(dimension) << 32) ^ GetOptions().seed)`
truncated to `uint32_t`. -/
def SobolSampler.sampleDimension (s : SobolSampler) (dim : ℕ) : ℚ :=
  if dim < 2 ∨ s.randomizeStrategy = .noRandomize then
    sobolSample s.sobolIndex dim .noR
  else
    let hash := MixBits (((dim <<< 32) % 2 ^ 64) ^^^ s.optionsSeed) % 2 ^ 32
    if s.randomizeStrategy = .cranleyPatterson then
      sobolSample s.sobolIndex dim (.cp hash)
    else if s.randomizeStrategy = .xorScramble then
      sobolSample s.sobolIndex dim (.xorS hash)
    else
      sobolSample s.sobolIndex dim (.owen hash)

/-- `SobolSampler::Get1D` (`samplers.h` lines 366-370). -/
def SobolSampler.get1D (s : SobolSampler) : ℚ × SobolSampler :=
  let dim := if NSobolDimensions ≤ s.dimension then 2 else s.dimension
  (s.sampleDimension dim, { s with dimension := dim + 1 })

/-- `SobolSampler::Get2D` (`samplers.h` lines 373-387). -/
def SobolSampler.get2D (s : SobolSampler) : (ℚ × ℚ) × SobolSampler :=
  let dim := if NSobolDimensions ≤ s.dimension + 1 then 2 else s.dimension
  let u := (s.sampleDimension dim, s.sampleDimension (dim + 1))
  let u :=
    if dim = 0 then
      (clampQ (u.1 * (s.scale : ℚ) - (s.pixel.1 : ℚ)) 0 OneMinusEpsilon,
        clampQ (u.2 * (s.scale : ℚ) - (s.pixel.2 : ℚ)) 0 OneMinusEpsilon)
    else u
  (u, { s with dimension := dim + 2 })

/-! ## StratifiedSampler (`samplers.h` lines 419-481) -/

structure StratifiedSampler where
  xPixelSamples : ℕ
  yPixelSamples : ℕ
  seed : ℕ
  jitter : Bool
  rng : RNG
  pixel : ℕ × ℕ
  sampleIndex : ℕ
  dimension : ℕ
deriving DecidableEq

def StratifiedSampler.params (s : StratifiedSampler) : ℕ × ℕ × ℕ × Bool :=
  (s.xPixelSamples, s.yPixelSamples, s.seed, s.jitter)

/-- `StratifiedSampler::SamplesPerPixel` (`samplers.h` line 434). -/
def StratifiedSampler.samplesPerPixel (s : StratifiedSampler) : ℕ :=
  s.xPixelSamples * s.yPixelSamples

/-- `StratifiedSampler::StartPixelSample` (`samplers.h` lines 437-443). -/
def StratifiedSampler.startPixelSample (s : StratifiedSampler) (p : ℕ × ℕ)
    (index dim : ℕ) : StratifiedSampler :=
  { s with
    pixel := p
    sampleIndex := index
    dimension := dim
    rng := ((s.rng.setSequence ((p.1 + p.2 * 65536) |||
      (s.seed <<< 32))).advance (index * 65536 + dim)) }

/-- `StratifiedSampler::Get1D` (`samplers.h` lines 446-455). -/
def StratifiedSampler.get1D (s : StratifiedSampler) : ℚ × StratifiedSampler :=
  let hash := pixelDimHash s.pixel s.dimension s.seed
  let stratum := PermutationElement s.sampleIndex s.samplesPerPixel hash
  let (delta, rng') := if s.jitter then s.rng.uniform else ((1 : ℚ) / 2, s.rng)
  (((stratum : ℚ) + delta) / (s.samplesPerPixel : ℚ),
    { s with dimension := s.dimension + 1, rng := rng' })

/-- `StratifiedSampler::Get2D` (`samplers.h` lines 458-469). -/
def StratifiedSampler.get2D (s : StratifiedSampler) : (ℚ × ℚ) × StratifiedSampler :=
  let hash := pixelDimHash s.pixel s.dimension s.seed
  let stratum := PermutationElement s.sampleIndex s.samplesPerPixel hash
  let x := stratum % s.xPixelSamples
  let y := stratum / s.xPixelSamples
  let (dx, rng1) := if s.jitter then s.rng.uniform else ((1 : ℚ) / 2, s.rng)
  let (dy, rng2) := if s.jitter then rng1.uniform else ((1 : ℚ) / 2, rng1)
  ((((x : ℚ) + dx) / (s.xPixelSamples : ℚ), ((y : ℚ) + dy) / (s.yPixelSamples : ℚ)),
    { s with dimension := s.dimension + 2, rng := rng2 })

/-! ## MLTSampler (`samplers.h` lines 484-610) -/

/-- `MLTSampler::PrimarySample` (`samplers.h` lines 540-564): a value in
`[0,1)` tagged with the iteration at which it was last modified, plus a
backup of both. -/
structure PrimarySample where
  value : ℚ := 0
  lastModificationIteration : ℤ := 0
  valueBackup : ℚ := 0
  modifyBackup : ℤ := 0
deriving DecidableEq

/-- `PrimarySample::Backup` (`samplers.h` lines 544-547). -/
def PrimarySample.backup (p : PrimarySample) : PrimarySample :=
  { p with valueBackup := p.value, modifyBackup := p.lastModificationIteration }

/-- `PrimarySample::Restore` (`samplers.h` lines 549-552). -/
def PrimarySample.restore (p : PrimarySample) : PrimarySample :=
  { p with value := p.valueBackup, lastModificationIteration := p.modifyBackup }

/-- State of `MLTSampler`.  Following the spec ("a state machine over an
open-ended mapping from coordinate index → primary sample"), the
lazily-grown `pstd::vector<PrimarySample> X` is modelled as a total map
from indices to primary samples in which unmaterialized entries hold
the default `PrimarySample`. -/
structure MLTSampler where
  mutationsPerPixel : ℕ
  rng : RNG
  sigma : ℚ
  largeStepProbability : ℚ
  streamCount : ℕ
  X : ℕ → PrimarySample
  currentIteration : ℤ
  largeStep : Bool
  lastLargeStepIteration : ℤ
  streamIndex : ℕ
  sampleIndex : ℕ

/-- `MLTSampler::GetNextIndex` (`samplers.h` line 505):
`streamIndex + streamCount * sampleIndex++`. -/
def MLTSampler.getNextIndex (s : MLTSampler) : ℕ × MLTSampler :=
  (s.streamIndex + s.streamCount * s.sampleIndex,
    { s with sampleIndex := s.sampleIndex + 1 })

/-- Modelled from the spec: `MLTSampler::StartStream` (declared at
`samplers.h` line 502, defined in `samplers.cpp`, not in the supplied
slice): selects the logical stream and resets its per-stream request
counter. -/
def MLTSampler.startStream (s : MLTSampler) (index : ℕ) : MLTSampler :=
  { s with streamIndex := index, sampleIndex := 0 }

/-- Modelled from the spec: `MLTSampler::StartIteration` (declared at
`samplers.h` line 496, defined in `samplers.cpp`, not in the supplied
slice): increments the iteration counter, draws whether this iteration
is a large step (probability `largeStepProbability`), and resets the
per-iteration stream/sample cursors. -/
def MLTSampler.startIteration (s : MLTSampler) : MLTSampler :=
  let (u, rng') := s.rng.uniform
  { s with
    currentIteration := s.currentIteration + 1
    largeStep := decide (u < s.largeStepProbability)
    rng := rng'
    streamIndex := 0
    sampleIndex := 0 }

/-- A small-step perturbation of `value`, wrapped back into `[0,1)`.
Modelled from the spec: the exact Gaussian shape (`ErfInv`) of the
perturbation is immaterial to the claims; only determinism and the
wrap matter. -/
def perturb (value sigma : ℚ) (nSmall : ℕ) (u : ℚ) : ℚ :=
  Int.fract (value + sigma * (nSmall : ℚ) * (2 * u - 1))

/-- Modelled from the spec: `MLTSampler::EnsureReady` (declared at
`samplers.h` line 568, defined in `samplers.cpp`, not in the supplied
slice): materializes the primary sample at `index` up to the current
iteration.  Per the spec it always backs up the prior value and
modification iteration before mutating; then, on a large step, the
value is resampled uniformly, otherwise stale values are first caught
up from `lastLargeStepIteration` and the accumulated small-step
perturbations are replayed. -/
def MLTSampler.ensureReady (s : MLTSampler) (index : ℕ) : MLTSampler :=
  let Xi := (s.X index).backup
  let (u1, rng1) := s.rng.uniform
  let (u2, rng2) := rng1.uniform
  let newXi :=
    if s.largeStep then
      { Xi with value := u1, lastModificationIteration := s.currentIteration }
    else
      let base :=
        if Xi.lastModificationIteration < s.lastLargeStepIteration then
          (u1, s.lastLargeStepIteration)
        else (Xi.value, Xi.lastModificationIteration)
      { Xi with
        value := perturb base.1 s.sigma (s.currentIteration - base.2).toNat u2
        lastModificationIteration := s.currentIteration }
  { s with X := Function.update s.X index newXi, rng := rng2 }

/-- Modelled from the spec: `MLTSampler::Reject` (declared at
`samplers.h` line 499, defined in `samplers.cpp`, not in the supplied
slice): restores every primary sample touched during this iteration
from its backup, then rewinds the iteration counter. -/
def MLTSampler.reject (s : MLTSampler) : MLTSampler :=
  { s with
    X := fun i =>
      if (s.X i).lastModificationIteration = s.currentIteration then
        (s.X i).restore
      else s.X i
    currentIteration := s.currentIteration - 1 }

/-- Modelled from the spec: `MLTSampler::Accept` (declared at
`samplers.h` line 525, defined in `samplers.cpp`, not in the supplied
slice): a large step records this iteration as the last large-step
iteration; mutations already applied are kept. -/
def MLTSampler.accept (s : MLTSampler) : MLTSampler :=
  if s.largeStep then { s with lastLargeStepIteration := s.currentIteration } else s

/-- The index produced by the `n`-th `GetNextIndex` call (counted from
0) issued on state `s`. -/
def MLTSampler.nthIndex (s : MLTSampler) : ℕ → ℕ
  | 0 => s.getNextIndex.1
  | n + 1 => (s.getNextIndex.2).nthIndex n

/-! ## DebugMLTSampler (`samplers.h` lines 582-610) -/

/-- State of `DebugMLTSampler`: the inherited `MLTSampler` state plus
the recorded primary-sample sequence `u`. -/
structure DebugMLTSampler where
  base : MLTSampler
  u : List ℚ

/-- `DebugMLTSampler::Get1D` (`samplers.h` lines 588-596): draws the
next global index and returns the recorded value at it; `CHECK_LT`
aborts when the index is outside the recorded sequence, modelled as
`Option.none`. -/
def DebugMLTSampler.get1D (d : DebugMLTSampler) : Option (ℚ × DebugMLTSampler) :=
  let (index, base') := d.base.getNextIndex
  if h : index < d.u.length then
    some (d.u.get ⟨index, h⟩, { d with base := base' })
  else none

/-! ## Generic request traces -/

/-- A request issued after `StartPixelSample`: one 1D or one 2D
sample. -/
inductive Req
  | one
  | two
deriving DecidableEq

/-- An output of a request. -/
inductive Out
  | oneV (v : ℚ)
  | twoV (v : ℚ × ℚ)
deriving DecidableEq

/-- Replays a sequence of `Get1D`/`Get2D` requests against a sampler
state, collecting the outputs. -/
def runTrace {σ : Type} (g1 : σ → ℚ × σ) (g2 : σ → (ℚ × ℚ) × σ) :
    σ → List Req → List Out
  | _, [] => []
  | s, .one :: rs =>
    let (v, s') := g1 s
    .oneV v :: runTrace g1 g2 s' rs
  | s, .two :: rs =>
    let (v, s') := g2 s
    .twoV v :: runTrace g1 g2 s' rs

/-- `q` lies in the half-open unit interval `[0, 1)`. -/
def inUnit (q : ℚ) : Prop := 0 ≤ q ∧ q < 1

/-- The center of cell `(i, j)` of the 4×4 grid over `[0,1)^2`. -/
def stratCenter (i j : ℕ) : ℚ × ℚ := (((i : ℚ) + 1 / 2) / 4, ((j : ℚ) + 1 / 2) / 4)

/-- Applies `EnsureReady` to each index of `L` in turn — the mutation
phase of one Metropolis iteration. -/
def MLTSampler.mutateAll (s : MLTSampler) (L : List ℕ) : MLTSampler :=
  L.foldl MLTSampler.ensureReady s

/-! ## Basic facts about the modelled primitives -/

theorem OneMinusEpsilon_nonneg : 0 ≤ OneMinusEpsilon := by norm_num [OneMinusEpsilon]

theorem OneMinusEpsilon_lt_one : OneMinusEpsilon < 1 := by norm_num [OneMinusEpsilon]

theorem unitFrac_nonneg (x m : ℕ) : 0 ≤ unitFrac x m := by
  unfold unitFrac
  positivity

theorem unitFrac_lt_one (x : ℕ) {m : ℕ} (hm : 0 < m) : unitFrac x m < 1 := by
  unfold unitFrac
  rw [div_lt_one (by exact_mod_cast hm)]
  exact_mod_cast Nat.mod_lt x hm

theorem PermutationElement_lt (i hash : ℕ) {l : ℕ} (hl : 0 < l) :
    PermutationElement i l hash < l := Nat.mod_lt _ hl

theorem two_le_PrimeBase (n : ℕ) : 2 ≤ PrimeBase n := by
  match n with
  | 0 => simp [PrimeBase]
  | 1 => simp [PrimeBase]
  | n + 2 => simp [PrimeBase]; omega

theorem digitReversal_mem_Ico {b : ℕ} (hb : 2 ≤ b) (l : List ℕ)
    (hl : ∀ x ∈ l, x < b) :
    0 ≤ ((Nat.ofDigits b l : ℕ) : ℚ) / (b : ℚ) ^ l.length ∧
      ((Nat.ofDigits b l : ℕ) : ℚ) / (b : ℚ) ^ l.length < 1 := by
  have hb1 : (1 : ℕ) < b := hb
  have hpow : (0 : ℚ) < (b : ℚ) ^ l.length := by positivity
  constructor
  · positivity
  · rw [div_lt_one hpow]
    have h := Nat.ofDigits_lt_base_pow_length hb1 hl
    calc ((Nat.ofDigits b l : ℕ) : ℚ) < ((b ^ l.length : ℕ) : ℚ) := by exact_mod_cast h
      _ = (b : ℚ) ^ l.length := by push_cast; ring

theorem radicalInverse_mem_Ico {b : ℕ} (hb : 2 ≤ b) (a : ℕ) :
    0 ≤ radicalInverse b a ∧ radicalInverse b a < 1 := by
  have hdig : ∀ x ∈ (Nat.digits b a).reverse, x < b := by
    intro x hx
    exact Nat.digits_lt_base hb (List.mem_reverse.mp hx)
  have h := digitReversal_mem_Ico hb ((Nat.digits b a).reverse) hdig
  simpa [radicalInverse, List.length_reverse] using h

theorem scrambledRadicalInverse_mem_Ico (seed dim a : ℕ) :
    0 ≤ scrambledRadicalInverse seed dim a ∧
      scrambledRadicalInverse seed dim a < 1 := by
  have hb : 2 ≤ PrimeBase dim := two_le_PrimeBase dim
  have hdig : ∀ x ∈ ((Nat.digits (PrimeBase dim) a).map
      (digitPermute seed dim (PrimeBase dim))).reverse, x < PrimeBase dim := by
    intro x hx
    rcases List.mem_map.mp (List.mem_reverse.mp hx) with ⟨d, _, rfl⟩
    exact Nat.mod_lt _ (by omega)
  have h := digitReversal_mem_Ico hb _ hdig
  simpa [scrambledRadicalInverse] using h

theorem RNG.uniform_mem_Ico (r : RNG) :
    0 ≤ r.uniform.1 ∧ r.uniform.1 < 1 :=
  ⟨unitFrac_nonneg _ _, unitFrac_lt_one _ (by norm_num)⟩

theorem BlueNoise_mem_Ico (dim : ℕ) (p : ℕ × ℕ) :
    0 ≤ BlueNoise dim p ∧ BlueNoise dim p < 1 :=
  ⟨unitFrac_nonneg _ _, unitFrac_lt_one _ (by norm_num)⟩

theorem min_OneMinusEpsilon_mem_Ico {x : ℚ} (hx : 0 ≤ x) :
    0 ≤ min x OneMinusEpsilon ∧ min x OneMinusEpsilon < 1 :=
  ⟨le_min hx OneMinusEpsilon_nonneg,
    lt_of_le_of_lt (min_le_right _ _) OneMinusEpsilon_lt_one⟩

theorem sobolSample_mem_Ico (a dim : ℕ) (r : Randomizer) :
    0 ≤ sobolSample a dim r ∧ sobolSample a dim r < 1 :=
  min_OneMinusEpsilon_mem_Ico (unitFrac_nonneg _ _)

/-! ## Claim theorems -/

theorem mlt_nthIndex_formula (n : ℕ) :
    ∀ s : MLTSampler, s.nthIndex n = s.streamIndex + s.streamCount * (s.sampleIndex + n) := by
  induction n with
  | zero =>
    intro s
    simp [MLTSampler.nthIndex, MLTSampler.getNextIndex]
  | succ n ih =>
    intro s
    show (s.getNextIndex.2).nthIndex n = _
    rw [ih]
    show s.streamIndex + s.streamCount * (s.sampleIndex + 1 + n) = _
    ring

/-- C4: after `StartStream(s)` the `n`-th `GetNextIndex` call returns
`s + streamCount * n`; for `streamCount = 3` the index streams are
congruent to their stream index mod 3 and pairwise disjoint. -/
theorem C4_mlt_stream_indexing (m : MLTSampler) :
    (∀ s n : ℕ, (m.startStream s).nthIndex n = s + m.streamCount * n) ∧
    (m.streamCount = 3 →
      (∀ s n : ℕ, s < 3 → ((m.startStream s).nthIndex n) % 3 = s) ∧
      (∀ s s' n n' : ℕ, s < 3 → s' < 3 → s ≠ s' →
        (m.startStream s).nthIndex n ≠ (m.startStream s').nthIndex n')) := by
  have hbase : ∀ s n : ℕ, (m.startStream s).nthIndex n = s + m.streamCount * n := by
    intro s n
    rw [mlt_nthIndex_formula]
    simp [MLTSampler.startStream]
  refine ⟨hbase, fun h3 => ⟨?_, ?_⟩⟩
  · intro s n hs
    rw [hbase, h3]
    omega
  · intro s s' n n' hs hs' hne
    rw [hbase, hbase, h3]
    omega

theorem C4_witness :
    ((⟨8, ⟨0, 0⟩, 1 / 2, 1 / 2, 3, fun _ => {}, 0, true, 0, 0, 0⟩ :
        MLTSampler).startStream 1).nthIndex 4 = 1 + 3 * 4 :=
  (C4_mlt_stream_indexing _).1 1 4

/-- C6: for the Halton sampler, `StartPixelSample(p, k, d)` establishes
combined index `index0 + k * stride` where `stride = baseScales[0] *
baseScales[1]` and `index0`, the pixel offset computed at `k = 0`, lies
in `[0, stride)`; hence indices are pairwise distinct across sample
indices. -/
theorem C6_halton_index (s : HaltonSampler) (p : ℕ × ℕ)
    (h1 : 0 < s.baseScales.1) (h2 : 0 < s.baseScales.2) :
    (∀ k d : ℕ, (s.startPixelSample p k d).haltonIndex =
      (s.startPixelSample p 0 0).haltonIndex + k * (s.baseScales.1 * s.baseScales.2)) ∧
    (s.startPixelSample p 0 0).haltonIndex < s.baseScales.1 * s.baseScales.2 ∧
    (∀ k k' d d' : ℕ, (s.startPixelSample p k d).haltonIndex =
      (s.startPixelSample p k' d').haltonIndex → k = k') := by
  have hstride : 0 < s.baseScales.1 * s.baseScales.2 := Nat.mul_pos h1 h2
  have hform : ∀ k d : ℕ, (s.startPixelSample p k d).haltonIndex =
      (s.startPixelSample p 0 0).haltonIndex + k * (s.baseScales.1 * s.baseScales.2) := by
    intro k d
    simp [HaltonSampler.startPixelSample]
  refine ⟨hform, ?_, ?_⟩
  · show (if _ then _ else _) + 0 * _ < _
    split
    · simpa using Nat.mod_lt _ hstride
    · omega
  · intro k k' d d' h
    rw [hform k d, hform k' d'] at h
    have := Nat.add_left_cancel h
    exact Nat.eq_of_mul_eq_mul_right hstride this

theorem C6_witness :
    0 < (2, 3).1 ∧
    ∀ k d : ℕ,
      ((⟨16, 0, (2, 3), (1, 1), (1, 1), 0, 0⟩ : HaltonSampler).startPixelSample
          (5, 9) k d).haltonIndex =
        ((⟨16, 0, (2, 3), (1, 1), (1, 1), 0, 0⟩ : HaltonSampler).startPixelSample
          (5, 9) 0 0).haltonIndex + k * ((2, 3).1 * (2, 3).2) :=
  ⟨by decide, (C6_halton_index _ (5, 9) (by decide) (by decide)).1⟩

/-- C9: the debug Metropolis sampler's `Get1D` fails fast (modelled as
`none`) when the next global index is at least the recorded length, and
returns the recorded value verbatim for any index below it. -/
theorem C9_debug_mlt (d : DebugMLTSampler) :
    (d.u.length ≤ d.base.streamIndex + d.base.streamCount * d.base.sampleIndex →
      d.get1D = none) ∧
    (∀ h : d.base.streamIndex + d.base.streamCount * d.base.sampleIndex < d.u.length,
      d.get1D = some (d.u.get ⟨d.base.streamIndex + d.base.streamCount * d.base.sampleIndex, h⟩,
        { d with base := d.base.getNextIndex.2 })) := by
  constructor
  · intro h
    simp [DebugMLTSampler.get1D, MLTSampler.getNextIndex]
    omega
  · intro h
    simp [DebugMLTSampler.get1D, MLTSampler.getNextIndex, h]

theorem C9_witness :
    (⟨⟨8, ⟨0, 0⟩, 1 / 2, 1 / 2, 3, fun _ => {}, 0, true, 0, 1, 2⟩, [1 / 4, 3 / 4]⟩ :
        DebugMLTSampler).get1D = none :=
  (C9_debug_mlt _).1 (by decide)

/-- C10: Halton outputs depend on the pixel only through its
coordinates modulo `MaxHaltonResolution = 128`: congruent pixels give
identical post-`StartPixelSample` states and identical replies to any
request sequence. -/
theorem C10_halton_mod128 (s : HaltonSampler) (p q : ℕ × ℕ) (k d : ℕ)
    (hx : p.1 % MaxHaltonResolution = q.1 % MaxHaltonResolution)
    (hy : p.2 % MaxHaltonResolution = q.2 % MaxHaltonResolution) :
    s.startPixelSample p k d = s.startPixelSample q k d ∧
    ∀ reqs : List Req,
      runTrace HaltonSampler.get1D HaltonSampler.get2D (s.startPixelSample p k d) reqs =
        runTrace HaltonSampler.get1D HaltonSampler.get2D (s.startPixelSample q k d) reqs := by
  have hstate : s.startPixelSample p k d = s.startPixelSample q k d := by
    simp only [HaltonSampler.startPixelSample, hx, hy]
  exact ⟨hstate, fun reqs => by rw [hstate]⟩

theorem C10_witness :
    (⟨16, 7, (4, 9), (2, 2), (1, 4), 0, 0⟩ : HaltonSampler).startPixelSample (130, 3) 5 0 =
      (⟨16, 7, (4, 9), (2, 2), (1, 4), 0, 0⟩ : HaltonSampler).startPixelSample (2, 131) 5 0 :=
  (C10_halton_mod128 _ (130, 3) (2, 131) 5 0 (by decide) (by decide)).1

theorem halton_start_eq_of_params {s t : HaltonSampler} (h : s.params = t.params)
    (p : ℕ × ℕ) (k d : ℕ) : s.startPixelSample p k d = t.startPixelSample p k d := by
  cases s
  cases t
  simp only [HaltonSampler.params, Prod.mk.injEq] at h
  obtain ⟨h1, h2, h3, h4, h5⟩ := h
  subst h1 h2 h3 h4 h5
  rfl

theorem paddedSobol_start_eq_of_params {s t : PaddedSobolSampler} (h : s.params = t.params)
    (p : ℕ × ℕ) (k d : ℕ) : s.startPixelSample p k d = t.startPixelSample p k d := by
  cases s
  cases t
  simp only [PaddedSobolSampler.params, Prod.mk.injEq] at h
  obtain ⟨h1, h2, h3⟩ := h
  subst h1 h2 h3
  rfl

theorem pmj02bn_start_eq_of_params {s t : PMJ02BNSampler} (h : s.params = t.params)
    (p : ℕ × ℕ) (k d : ℕ) : s.startPixelSample p k d = t.startPixelSample p k d := by
  cases s
  cases t
  simp only [PMJ02BNSampler.params, Prod.mk.injEq] at h
  obtain ⟨h1, h2, h3⟩ := h
  subst h1 h2 h3
  rfl

theorem random_start_eq_of_params {s t : RandomSampler} (h : s.params = t.params)
    (p : ℕ × ℕ) (k d : ℕ) : s.startPixelSample p k d = t.startPixelSample p k d := by
  cases s
  cases t
  simp only [RandomSampler.params, Prod.mk.injEq] at h
  obtain ⟨h1, h2⟩ := h
  subst h1 h2
  rfl

theorem sobol_start_eq_of_params {s t : SobolSampler} (h : s.params = t.params)
    (p : ℕ × ℕ) (k d : ℕ) : s.startPixelSample p k d = t.startPixelSample p k d := by
  cases s
  cases t
  simp only [SobolSampler.params, Prod.mk.injEq] at h
  obtain ⟨h1, h2, h3, h4⟩ := h
  subst h1 h2 h3 h4
  rfl

theorem stratified_start_eq_of_params {s t : StratifiedSampler} (h : s.params = t.params)
    (p : ℕ × ℕ) (k d : ℕ) : s.startPixelSample p k d = t.startPixelSample p k d := by
  cases s
  cases t
  simp only [StratifiedSampler.params, Prod.mk.injEq] at h
  obtain ⟨h1, h2, h3, h4⟩ := h
  subst h1 h2 h3 h4
  rfl

/-- C1: for every generator variant, any two instances that agree on
their construction parameters (clones in particular — their mutable
cursors may differ arbitrarily) reach identical states from
`StartPixelSample` with identical arguments, hence return identical
values for every position of any subsequent `Get1D`/`Get2D` request
sequence. -/
theorem C1_determinism :
    (∀ (s t : HaltonSampler) (p : ℕ × ℕ) (k d : ℕ) (reqs : List Req),
      s.params = t.params →
      runTrace HaltonSampler.get1D HaltonSampler.get2D (s.startPixelSample p k d) reqs =
        runTrace HaltonSampler.get1D HaltonSampler.get2D (t.startPixelSample p k d) reqs) ∧
    (∀ (s t : PaddedSobolSampler) (p : ℕ × ℕ) (k d : ℕ) (reqs : List Req),
      s.params = t.params →
      runTrace PaddedSobolSampler.get1D PaddedSobolSampler.get2D
          (s.startPixelSample p k d) reqs =
        runTrace PaddedSobolSampler.get1D PaddedSobolSampler.get2D
          (t.startPixelSample p k d) reqs) ∧
    (∀ (s t : PMJ02BNSampler) (p : ℕ × ℕ) (k d : ℕ) (reqs : List Req),
      s.params = t.params →
      runTrace PMJ02BNSampler.get1D PMJ02BNSampler.get2D (s.startPixelSample p k d) reqs =
        runTrace PMJ02BNSampler.get1D PMJ02BNSampler.get2D (t.startPixelSample p k d) reqs) ∧
    (∀ (s t : RandomSampler) (p : ℕ × ℕ) (k d : ℕ) (reqs : List Req),
      s.params = t.params →
      runTrace RandomSampler.get1D RandomSampler.get2D (s.startPixelSample p k d) reqs =
        runTrace RandomSampler.get1D RandomSampler.get2D (t.startPixelSample p k d) reqs) ∧
    (∀ (s t : SobolSampler) (p : ℕ × ℕ) (k d : ℕ) (reqs : List Req),
      s.params = t.params →
      runTrace SobolSampler.get1D SobolSampler.get2D (s.startPixelSample p k d) reqs =
        runTrace SobolSampler.get1D SobolSampler.get2D (t.startPixelSample p k d) reqs) ∧
    (∀ (s t : StratifiedSampler) (p : ℕ × ℕ) (k d : ℕ) (reqs : List Req),
      s.params = t.params →
      runTrace StratifiedSampler.get1D StratifiedSampler.get2D
          (s.startPixelSample p k d) reqs =
        runTrace StratifiedSampler.get1D StratifiedSampler.get2D
          (t.startPixelSample p k d) reqs) := by
  refine ⟨?_, ?_, ?_, ?_, ?_, ?_⟩ <;> intro s t p k d reqs h
  · rw [halton_start_eq_of_params h]
  · rw [paddedSobol_start_eq_of_params h]
  · rw [pmj02bn_start_eq_of_params h]
  · rw [random_start_eq_of_params h]
  · rw [sobol_start_eq_of_params h]
  · rw [stratified_start_eq_of_params h]

theorem C1_witness :
    runTrace HaltonSampler.get1D HaltonSampler.get2D
        ((⟨16, 7, (4, 9), (2, 2), (1, 4), 11, 3⟩ : HaltonSampler).startPixelSample
          (3, 5) 2 0) [Req.two, Req.one] =
      runTrace HaltonSampler.get1D HaltonSampler.get2D
        ((⟨16, 7, (4, 9), (2, 2), (1, 4), 0, 0⟩ : HaltonSampler).startPixelSample
          (3, 5) 2 0) [Req.two, Req.one] :=
  C1_determinism.1 _ _ (3, 5) 2 0 [Req.two, Req.one] rfl

/-- C8: for every generator variant, `Get1D` advances the instance's
dimension cursor by exactly 1 and `Get2D` by exactly 2 (modulo the
specified wraparound), touching no other state than the instance's own
cursor (for the Random sampler the cursor is the RNG stream position;
for the jittered Stratified sampler the instance-owned RNG advances
alongside the dimension cursor). -/
theorem C8_cursor_advance :
    (∀ s : HaltonSampler,
      s.get1D.2 = { s with dimension := (if PrimeTableSize ≤ s.dimension then 2
        else s.dimension) + 1 } ∧
      s.get2D.2 = { s with dimension := (if s.dimension = 0 then s.dimension
        else if PrimeTableSize ≤ s.dimension + 1 then 2 else s.dimension) + 2 }) ∧
    (∀ s : PaddedSobolSampler,
      s.get1D.2 = { s with dimension := s.dimension + 1 } ∧
      s.get2D.2 = { s with dimension := s.dimension + 2 }) ∧
    (∀ s : PMJ02BNSampler,
      s.get1D.2 = { s with dimension := s.dimension + 1 } ∧
      s.get2D.2 = { s with dimension := s.dimension + 2 }) ∧
    (∀ s : RandomSampler,
      s.get1D.2 = { s with rng := s.rng.advance 1 } ∧
      s.get2D.2 = { s with rng := s.rng.advance 2 }) ∧
    (∀ s : SobolSampler,
      s.get1D.2 = { s with dimension := (if NSobolDimensions ≤ s.dimension then 2
        else s.dimension) + 1 } ∧
      s.get2D.2 = { s with dimension := (if NSobolDimensions ≤ s.dimension + 1 then 2
        else s.dimension) + 2 }) ∧
    (∀ s : StratifiedSampler,
      (s.get1D.2.dimension = s.dimension + 1 ∧ s.get1D.2.pixel = s.pixel ∧
        s.get1D.2.sampleIndex = s.sampleIndex ∧ s.get1D.2.params = s.params) ∧
      (s.get2D.2.dimension = s.dimension + 2 ∧ s.get2D.2.pixel = s.pixel ∧
        s.get2D.2.sampleIndex = s.sampleIndex ∧ s.get2D.2.params = s.params)) := by
  refine ⟨fun s => ⟨?_, ?_⟩, fun s => ⟨?_, ?_⟩, fun s => ⟨?_, ?_⟩, fun s => ⟨?_, ?_⟩,
    fun s => ⟨?_, ?_⟩, fun s => ⟨?_, ?_⟩⟩
  · rfl
  · unfold HaltonSampler.get2D
    split
    · rfl
    · rfl
  · rfl
  · rfl
  · rfl
  · unfold PMJ02BNSampler.get2D
    split
    · rfl
    · rfl
  · simp [RandomSampler.get1D, RNG.uniform, RNG.advance]
  · simp [RandomSampler.get2D, RNG.uniform, RNG.advance]
  · rfl
  · rfl
  · simp [StratifiedSampler.get1D, StratifiedSampler.params]
  · simp [StratifiedSampler.get2D, StratifiedSampler.params]

theorem inUnit_clampQ (x : ℚ) : inUnit (clampQ x 0 OneMinusEpsilon) :=
  ⟨le_max_left _ _,
    max_lt (by norm_num) (lt_of_le_of_lt (min_le_right _ _) OneMinusEpsilon_lt_one)⟩

theorem inUnit_unitFrac (x : ℕ) {m : ℕ} (hm : 0 < m) : inUnit (unitFrac x m) :=
  ⟨unitFrac_nonneg _ _, unitFrac_lt_one _ hm⟩

theorem paddedSobol_sampleDimension_inUnit (s : PaddedSobolSampler) (dim a hash : ℕ) :
    inUnit (s.sampleDimension dim a hash) := by
  unfold PaddedSobolSampler.sampleDimension
  rcases hrs : s.randomizeStrategy <;> simp [hrs]
  · exact sobolSample_mem_Ico _ _ _
  · exact ⟨le_refl 0, by norm_num⟩
  · exact sobolSample_mem_Ico _ _ _
  · exact sobolSample_mem_Ico _ _ _

theorem sobol_sampleDimension_inUnit (s : SobolSampler) (dim : ℕ) :
    inUnit (s.sampleDimension dim) := by
  unfold SobolSampler.sampleDimension
  split_ifs <;> exact sobolSample_mem_Ico _ _ _

theorem halton_get1D_inUnit (s : HaltonSampler) : inUnit s.get1D.1 :=
  scrambledRadicalInverse_mem_Ico _ _ _

theorem halton_get2D_inUnit (s : HaltonSampler) :
    inUnit s.get2D.1.1 ∧ inUnit s.get2D.1.2 := by
  unfold HaltonSampler.get2D
  split
  · exact ⟨radicalInverse_mem_Ico (by norm_num) _, radicalInverse_mem_Ico (by norm_num) _⟩
  · exact ⟨scrambledRadicalInverse_mem_Ico _ _ _, scrambledRadicalInverse_mem_Ico _ _ _⟩

theorem paddedSobol_get1D_inUnit (s : PaddedSobolSampler) : inUnit s.get1D.1 := by
  unfold PaddedSobolSampler.get1D
  split
  · exact sobolSample_mem_Ico _ _ _
  · exact paddedSobol_sampleDimension_inUnit _ _ _ _

theorem paddedSobol_get2D_inUnit (s : PaddedSobolSampler) :
    inUnit s.get2D.1.1 ∧ inUnit s.get2D.1.2 := by
  unfold PaddedSobolSampler.get2D
  split
  · exact ⟨sobolSample_mem_Ico _ _ _, sobolSample_mem_Ico _ _ _⟩
  · exact ⟨paddedSobol_sampleDimension_inUnit _ _ _ _,
      paddedSobol_sampleDimension_inUnit _ _ _ _⟩

theorem pmj02bn_get1D_inUnit (s : PMJ02BNSampler) : inUnit s.get1D.1 := by
  unfold PMJ02BNSampler.get1D
  refine min_OneMinusEpsilon_mem_Ico ?_
  have h1 : (0 : ℚ) ≤ BlueNoise s.dimension s.pixel := (BlueNoise_mem_Ico _ _).1
  positivity

theorem wrapCP_inUnit {a b : ℚ} (ha : 0 ≤ a) (hb : 0 ≤ b) :
    inUnit (min (if 1 ≤ a + b then a + b - 1 else a + b) OneMinusEpsilon) := by
  refine min_OneMinusEpsilon_mem_Ico ?_
  split <;> linarith

theorem pmj02bn_get2D_inUnit (s : PMJ02BNSampler) :
    inUnit s.get2D.1.1 ∧ inUnit s.get2D.1.2 := by
  unfold PMJ02BNSampler.get2D
  split
  · exact ⟨inUnit_unitFrac _ (by norm_num), inUnit_unitFrac _ (by norm_num)⟩
  · exact ⟨wrapCP_inUnit (unitFrac_nonneg _ _) (BlueNoise_mem_Ico _ _).1,
      wrapCP_inUnit (unitFrac_nonneg _ _) (BlueNoise_mem_Ico _ _).1⟩

theorem random_get1D_inUnit (s : RandomSampler) : inUnit s.get1D.1 :=
  RNG.uniform_mem_Ico _

theorem random_get2D_inUnit (s : RandomSampler) :
    inUnit s.get2D.1.1 ∧ inUnit s.get2D.1.2 :=
  ⟨RNG.uniform_mem_Ico _, RNG.uniform_mem_Ico _⟩

theorem sobol_get1D_inUnit (s : SobolSampler) : inUnit s.get1D.1 :=
  sobol_sampleDimension_inUnit _ _

theorem sobol_pair_inUnit (s : SobolSampler) (d : ℕ) :
    inUnit (if d = 0 then
        (clampQ (s.sampleDimension d * (s.scale : ℚ) - (s.pixel.1 : ℚ)) 0 OneMinusEpsilon,
          clampQ (s.sampleDimension (d + 1) * (s.scale : ℚ) - (s.pixel.2 : ℚ)) 0
            OneMinusEpsilon)
      else (s.sampleDimension d, s.sampleDimension (d + 1))).1 ∧
    inUnit (if d = 0 then
        (clampQ (s.sampleDimension d * (s.scale : ℚ) - (s.pixel.1 : ℚ)) 0 OneMinusEpsilon,
          clampQ (s.sampleDimension (d + 1) * (s.scale : ℚ) - (s.pixel.2 : ℚ)) 0
            OneMinusEpsilon)
      else (s.sampleDimension d, s.sampleDimension (d + 1))).2 := by
  split
  · exact ⟨inUnit_clampQ _, inUnit_clampQ _⟩
  · exact ⟨sobol_sampleDimension_inUnit _ _, sobol_sampleDimension_inUnit _ _⟩

theorem sobol_get2D_shape (s : SobolSampler) :
    s.get2D.1 = (fun d =>
      if d = 0 then
        (clampQ (s.sampleDimension d * (s.scale : ℚ) - (s.pixel.1 : ℚ)) 0 OneMinusEpsilon,
          clampQ (s.sampleDimension (d + 1) * (s.scale : ℚ) - (s.pixel.2 : ℚ)) 0
            OneMinusEpsilon)
      else (s.sampleDimension d, s.sampleDimension (d + 1)))
      (if NSobolDimensions ≤ s.dimension + 1 then 2 else s.dimension) := rfl

theorem sobol_get2D_inUnit (s : SobolSampler) :
    inUnit s.get2D.1.1 ∧ inUnit s.get2D.1.2 := by
  rw [sobol_get2D_shape]
  exact sobol_pair_inUnit s _

theorem stratumFrac_inUnit {stratum n : ℕ} {delta : ℚ} (hn : stratum < n)
    (hd : inUnit delta) : inUnit (((stratum : ℚ) + delta) / (n : ℚ)) := by
  have hn0 : (0 : ℚ) < n := by
    have : 0 < n := Nat.lt_of_le_of_lt (Nat.zero_le _) hn
    exact_mod_cast this
  constructor
  · have := hd.1
    positivity
  · rw [div_lt_one hn0]
    have h1 : (stratum : ℚ) + 1 ≤ n := by exact_mod_cast hn
    linarith [hd.2]

theorem stratified_delta_inUnit (s : StratifiedSampler) (r : RNG) :
    inUnit (if s.jitter then r.uniform else ((1 : ℚ) / 2, r)).1 := by
  split
  · exact RNG.uniform_mem_Ico _
  · exact ⟨by norm_num, by norm_num⟩

theorem stratified_get1D_inUnit (s : StratifiedSampler)
    (hx : 0 < s.xPixelSamples) (hy : 0 < s.yPixelSamples) : inUnit s.get1D.1 := by
  have hspp : 0 < s.samplesPerPixel := Nat.mul_pos hx hy
  unfold StratifiedSampler.get1D
  exact stratumFrac_inUnit (PermutationElement_lt _ _ hspp)
    (stratified_delta_inUnit s s.rng)

theorem stratified_get2D_inUnit (s : StratifiedSampler)
    (hx : 0 < s.xPixelSamples) (hy : 0 < s.yPixelSamples) :
    inUnit s.get2D.1.1 ∧ inUnit s.get2D.1.2 := by
  have hspp : 0 < s.samplesPerPixel := Nat.mul_pos hx hy
  have hstr : PermutationElement s.sampleIndex s.samplesPerPixel
      (pixelDimHash s.pixel s.dimension s.seed) < s.samplesPerPixel :=
    PermutationElement_lt _ _ hspp
  unfold StratifiedSampler.get2D
  constructor
  · exact stratumFrac_inUnit (Nat.mod_lt _ hx) (stratified_delta_inUnit s s.rng)
  · refine stratumFrac_inUnit ?_ (stratified_delta_inUnit s _)
    rw [Nat.div_lt_iff_lt_mul hx]
    calc PermutationElement s.sampleIndex s.samplesPerPixel _ < s.samplesPerPixel := hstr
      _ = s.yPixelSamples * s.xPixelSamples := Nat.mul_comm _ _

/-- C2: for every generator variant, in every reachable state (in
particular after any `StartPixelSample`), `Get1D` returns a value in
`[0,1)` and both components of `Get2D` lie in `[0,1)` (the Stratified
sampler's stratum counts are positive by construction). -/
theorem C2_range (hs : HaltonSampler) (ps : PaddedSobolSampler) (pm : PMJ02BNSampler)
    (rs : RandomSampler) (ss : SobolSampler) (st : StratifiedSampler)
    (hx : 0 < st.xPixelSamples) (hy : 0 < st.yPixelSamples) :
    (inUnit hs.get1D.1 ∧ inUnit hs.get2D.1.1 ∧ inUnit hs.get2D.1.2) ∧
    (inUnit ps.get1D.1 ∧ inUnit ps.get2D.1.1 ∧ inUnit ps.get2D.1.2) ∧
    (inUnit pm.get1D.1 ∧ inUnit pm.get2D.1.1 ∧ inUnit pm.get2D.1.2) ∧
    (inUnit rs.get1D.1 ∧ inUnit rs.get2D.1.1 ∧ inUnit rs.get2D.1.2) ∧
    (inUnit ss.get1D.1 ∧ inUnit ss.get2D.1.1 ∧ inUnit ss.get2D.1.2) ∧
    (inUnit st.get1D.1 ∧ inUnit st.get2D.1.1 ∧ inUnit st.get2D.1.2) :=
  ⟨⟨halton_get1D_inUnit hs, (halton_get2D_inUnit hs).1, (halton_get2D_inUnit hs).2⟩,
    ⟨paddedSobol_get1D_inUnit ps, (paddedSobol_get2D_inUnit ps).1,
      (paddedSobol_get2D_inUnit ps).2⟩,
    ⟨pmj02bn_get1D_inUnit pm, (pmj02bn_get2D_inUnit pm).1, (pmj02bn_get2D_inUnit pm).2⟩,
    ⟨random_get1D_inUnit rs, (random_get2D_inUnit rs).1, (random_get2D_inUnit rs).2⟩,
    ⟨sobol_get1D_inUnit ss, (sobol_get2D_inUnit ss).1, (sobol_get2D_inUnit ss).2⟩,
    ⟨stratified_get1D_inUnit st hx hy, (stratified_get2D_inUnit st hx hy).1,
      (stratified_get2D_inUnit st hx hy).2⟩⟩

theorem C2_witness :
    0 < (4 : ℕ) ∧
    inUnit ((⟨4, 4, 0, true, ⟨0, 0⟩, (0, 0), 0, 0⟩ : StratifiedSampler).get1D.1) :=
  ⟨by decide,
    (C2_range ⟨16, 7, (4, 9), (2, 2), (1, 4), 0, 0⟩
      ⟨16, RandomizeStrategy.owen, 0, (0, 0), 0, 0⟩ ⟨16, 0, 4, (0, 0), 0, 0⟩
      ⟨16, 0, ⟨0, 0⟩⟩ ⟨16, 64, RandomizeStrategy.owen, 0, (0, 0), 0, 0⟩
      ⟨4, 4, 0, true, ⟨0, 0⟩, (0, 0), 0, 0⟩ (by decide) (by decide)).2.2.2.2.2.1⟩

theorem halton_get1D_value (s : HaltonSampler) :
    s.get1D.1 = scrambledRadicalInverse s.digitPermSeed
      (if PrimeTableSize ≤ s.dimension then 2 else s.dimension) s.haltonIndex := rfl

theorem halton_get1D_dim (s : HaltonSampler) :
    s.get1D.2.dimension = (if PrimeTableSize ≤ s.dimension then 2 else s.dimension) + 1 :=
  rfl

theorem halton_get2D_value_wrap (s : HaltonSampler) (h0 : s.dimension ≠ 0) :
    s.get2D.1 = (scrambledRadicalInverse s.digitPermSeed
        (if PrimeTableSize ≤ s.dimension + 1 then 2 else s.dimension) s.haltonIndex,
      scrambledRadicalInverse s.digitPermSeed
        ((if PrimeTableSize ≤ s.dimension + 1 then 2 else s.dimension) + 1)
        s.haltonIndex) ∧
    s.get2D.2.dimension =
      (if PrimeTableSize ≤ s.dimension + 1 then 2 else s.dimension) + 2 := by
  unfold HaltonSampler.get2D
  rw [if_neg h0]
  exact ⟨rfl, rfl⟩

theorem sobol_get1D_value (s : SobolSampler) :
    s.get1D.1 = s.sampleDimension (if NSobolDimensions ≤ s.dimension then 2
      else s.dimension) := rfl

theorem sobol_get1D_dim (s : SobolSampler) :
    s.get1D.2.dimension = (if NSobolDimensions ≤ s.dimension then 2 else s.dimension) + 1 :=
  rfl

theorem sobol_get2D_dim (s : SobolSampler) :
    s.get2D.2.dimension =
      (if NSobolDimensions ≤ s.dimension + 1 then 2 else s.dimension) + 2 := rfl

/-- C7: when the dimension cursor reaches the table bound
(`PrimeTableSize` for Halton, `NSobolDimensions` for Sobol), `Get1D`
and `Get2D` wrap back to dimension 2 and still return in-range values;
moreover once the cursor is at least 2 every sample is drawn from a
dimension at least 2, so dimensions 0 and 1 are never produced again. -/
theorem C7_dimension_wraparound :
    (∀ s : HaltonSampler, PrimeTableSize ≤ s.dimension →
      s.get1D.1 = scrambledRadicalInverse s.digitPermSeed 2 s.haltonIndex ∧
      s.get1D.2.dimension = 3 ∧ inUnit s.get1D.1) ∧
    (∀ s : HaltonSampler, PrimeTableSize ≤ s.dimension →
      s.get2D.1 = (scrambledRadicalInverse s.digitPermSeed 2 s.haltonIndex,
        scrambledRadicalInverse s.digitPermSeed 3 s.haltonIndex) ∧
      s.get2D.2.dimension = 4 ∧ inUnit s.get2D.1.1 ∧ inUnit s.get2D.1.2) ∧
    (∀ s : SobolSampler, NSobolDimensions ≤ s.dimension →
      s.get1D.1 = s.sampleDimension 2 ∧ s.get1D.2.dimension = 3 ∧ inUnit s.get1D.1) ∧
    (∀ s : SobolSampler, NSobolDimensions ≤ s.dimension →
      s.get2D.1 = (s.sampleDimension 2, s.sampleDimension 3) ∧
      s.get2D.2.dimension = 4 ∧ inUnit s.get2D.1.1 ∧ inUnit s.get2D.1.2) ∧
    (∀ s : HaltonSampler, 2 ≤ s.dimension → ∃ d, 2 ≤ d ∧
      s.get1D.1 = scrambledRadicalInverse s.digitPermSeed d s.haltonIndex ∧
      s.get1D.2.dimension = d + 1) ∧
    (∀ s : HaltonSampler, 2 ≤ s.dimension → ∃ d, 2 ≤ d ∧
      s.get2D.1 = (scrambledRadicalInverse s.digitPermSeed d s.haltonIndex,
        scrambledRadicalInverse s.digitPermSeed (d + 1) s.haltonIndex) ∧
      s.get2D.2.dimension = d + 2) ∧
    (∀ s : SobolSampler, 2 ≤ s.dimension → ∃ d, 2 ≤ d ∧
      s.get1D.1 = s.sampleDimension d ∧ s.get1D.2.dimension = d + 1) ∧
    (∀ s : SobolSampler, 2 ≤ s.dimension → ∃ d, 2 ≤ d ∧
      s.get2D.1 = (s.sampleDimension d, s.sampleDimension (d + 1)) ∧
      s.get2D.2.dimension = d + 2) := by
  refine ⟨?_, ?_, ?_, ?_, ?_, ?_, ?_, ?_⟩
  · intro s h
    rw [halton_get1D_value, halton_get1D_dim, if_pos h]
    exact ⟨rfl, rfl, scrambledRadicalInverse_mem_Ico _ _ _⟩
  · intro s h
    have h0 : s.dimension ≠ 0 := by
      have : (1000 : ℕ) ≤ s.dimension := h
      omega
    have h1 : PrimeTableSize ≤ s.dimension + 1 := le_trans h (Nat.le_succ _)
    obtain ⟨hv, hd⟩ := halton_get2D_value_wrap s h0
    rw [if_pos h1] at hv hd
    exact ⟨hv, hd, (halton_get2D_inUnit s).1, (halton_get2D_inUnit s).2⟩
  · intro s h
    rw [sobol_get1D_value, sobol_get1D_dim, if_pos h]
    exact ⟨rfl, rfl, sobol_sampleDimension_inUnit _ _⟩
  · intro s h
    have h1 : NSobolDimensions ≤ s.dimension + 1 := le_trans h (Nat.le_succ _)
    have hv : s.get2D.1 = (s.sampleDimension 2, s.sampleDimension 3) := by
      rw [sobol_get2D_shape, if_pos h1]
      norm_num
    refine ⟨hv, ?_, (sobol_get2D_inUnit s).1, (sobol_get2D_inUnit s).2⟩
    rw [sobol_get2D_dim, if_pos h1]
  · intro s h
    refine ⟨if PrimeTableSize ≤ s.dimension then 2 else s.dimension, ?_,
      halton_get1D_value s, halton_get1D_dim s⟩
    split
    · exact le_refl 2
    · exact h
  · intro s h
    have h0 : s.dimension ≠ 0 := by omega
    obtain ⟨hv, hd⟩ := halton_get2D_value_wrap s h0
    refine ⟨if PrimeTableSize ≤ s.dimension + 1 then 2 else s.dimension, ?_, hv, hd⟩
    split
    · exact le_refl 2
    · exact h
  · intro s h
    refine ⟨if NSobolDimensions ≤ s.dimension then 2 else s.dimension, ?_,
      sobol_get1D_value s, sobol_get1D_dim s⟩
    split
    · exact le_refl 2
    · exact h
  · intro s h
    have h0 : (if NSobolDimensions ≤ s.dimension + 1 then 2 else s.dimension) ≠ 0 := by
      split <;> omega
    refine ⟨if NSobolDimensions ≤ s.dimension + 1 then 2 else s.dimension, ?_, ?_,
      sobol_get2D_dim s⟩
    · split
      · exact le_refl 2
      · exact h
    · rw [sobol_get2D_shape]
      beta_reduce
      rw [if_neg h0]

theorem C7_witness :
    PrimeTableSize ≤ 1000 ∧
    (⟨16, 7, (4, 9), (2, 2), (1, 4), 11, 1000⟩ : HaltonSampler).get1D.2.dimension = 3 :=
  ⟨by decide, (C7_dimension_wraparound.1 _ (by decide)).2.1⟩

theorem stratCenter_inj {a b c d : ℕ} (h : stratCenter a b = stratCenter c d) :
    a = c ∧ b = d := by
  rw [Prod.ext_iff] at h
  obtain ⟨h1, h2⟩ := h
  simp only [stratCenter] at h1 h2
  constructor
  · have : (a : ℚ) = c := by linarith
    exact_mod_cast this
  · have : (b : ℚ) = d := by linarith
    exact_mod_cast this

/-- C3: for the Stratified sampler with `xPixelSamples = yPixelSamples
= 4` and jitter disabled, for every pixel, seed and prior cursor state,
each of the 16 cells of the 4×4 grid over `[0,1)^2` is hit by the
first `Get2D` of `StartPixelSample(pixel, k, 0)` for exactly one `k <
16`, and the returned pair is the center of its cell. -/
theorem C3_stratified_4x4 (seed : ℕ) (p : ℕ × ℕ) (rng0 : RNG) (px0 : ℕ × ℕ)
    (si0 d0 : ℕ) (i j : ℕ) (hi : i < 4) (hj : j < 4) :
    ∃! k : ℕ, k < 16 ∧
      (((⟨4, 4, seed, false, rng0, px0, si0, d0⟩ : StratifiedSampler).startPixelSample
        p k 0).get2D).1 = stratCenter i j := by
  have hout : ∀ k : ℕ,
      (((⟨4, 4, seed, false, rng0, px0, si0, d0⟩ : StratifiedSampler).startPixelSample
        p k 0).get2D).1 =
      stratCenter ((k + pixelDimHash p 0 seed) % 16 % 4)
        ((k + pixelDimHash p 0 seed) % 16 / 4) := by
    intro k
    simp only [StratifiedSampler.startPixelSample, StratifiedSampler.get2D,
      StratifiedSampler.samplesPerPixel, PermutationElement, stratCenter]
    norm_num
  refine ⟨(4 * j + i + 16 - pixelDimHash p 0 seed % 16) % 16, ⟨by omega, ?_⟩, ?_⟩
  · rw [hout]
    have e1 : ((4 * j + i + 16 - pixelDimHash p 0 seed % 16) % 16 +
        pixelDimHash p 0 seed) % 16 = 4 * j + i := by omega
    have e2 : (4 * j + i) % 4 = i := by omega
    have e3 : (4 * j + i) / 4 = j := by omega
    rw [e1, e2, e3]
  · rintro k' ⟨hk', hval⟩
    rw [hout] at hval
    obtain ⟨e1, e2⟩ := stratCenter_inj hval
    omega

theorem C3_witness :
    1 < 4 ∧ 2 < 4 ∧
    ∃! k : ℕ, k < 16 ∧
      (((⟨4, 4, 0, false, ⟨0, 0⟩, (0, 0), 0, 0⟩ : StratifiedSampler).startPixelSample
        (0, 0) k 0).get2D).1 = stratCenter 1 2 :=
  ⟨by decide, by decide,
    C3_stratified_4x4 0 (0, 0) ⟨0, 0⟩ (0, 0) 0 0 1 2 (by decide) (by decide)⟩

theorem ensureReady_currentIteration (s : MLTSampler) (a : ℕ) :
    (s.ensureReady a).currentIteration = s.currentIteration := rfl

theorem ensureReady_X_ne (s : MLTSampler) {i a : ℕ} (h : i ≠ a) :
    (s.ensureReady a).X i = s.X i := by
  show Function.update s.X a _ i = s.X i
  exact Function.update_noteq h _ _

theorem ensureReady_X_self (s : MLTSampler) (a : ℕ) :
    ((s.ensureReady a).X a).lastModificationIteration = s.currentIteration ∧
    ((s.ensureReady a).X a).valueBackup = (s.X a).value ∧
    ((s.ensureReady a).X a).modifyBackup = (s.X a).lastModificationIteration := by
  rw [show (s.ensureReady a).X = Function.update s.X a _ from rfl,
    Function.update_same]
  split
  · exact ⟨rfl, rfl, rfl⟩
  · exact ⟨rfl, rfl, rfl⟩

theorem mutateAll_currentIteration (L : List ℕ) : ∀ s : MLTSampler,
    (s.mutateAll L).currentIteration = s.currentIteration := by
  induction L with
  | nil => intro s; rfl
  | cons a L ih =>
    intro s
    exact (ih (s.ensureReady a)).trans (ensureReady_currentIteration s a)

theorem mutateAll_X_not_mem (L : List ℕ) : ∀ (s : MLTSampler) (i : ℕ), i ∉ L →
    (s.mutateAll L).X i = s.X i := by
  induction L with
  | nil => intro s i _; rfl
  | cons a L ih =>
    intro s i hi
    have h1 : i ≠ a := fun h => hi (h ▸ List.mem_cons_self a L)
    have h2 : i ∉ L := fun h => hi (List.mem_cons_of_mem a h)
    exact (ih (s.ensureReady a) i h2).trans (ensureReady_X_ne s h1)

theorem mutateAll_X_mem (L : List ℕ) : ∀ (s : MLTSampler) (a : ℕ), a ∈ L → L.Nodup →
    ((s.mutateAll L).X a).lastModificationIteration = s.currentIteration ∧
    ((s.mutateAll L).X a).valueBackup = (s.X a).value ∧
    ((s.mutateAll L).X a).modifyBackup = (s.X a).lastModificationIteration := by
  induction L with
  | nil => intro s a ha _; cases ha
  | cons b L ih =>
    intro s a ha hnd
    rcases List.mem_cons.mp ha with rfl | haL
    · have haL : a ∉ L := (List.nodup_cons.mp hnd).1
      have hX : ((s.ensureReady a).mutateAll L).X a = (s.ensureReady a).X a :=
        mutateAll_X_not_mem L _ a haL
      have h3 := ensureReady_X_self s a
      rw [← hX] at h3
      exact h3
    · have hnd' : L.Nodup := (List.nodup_cons.mp hnd).2
      have hab : a ≠ b := fun h => (List.nodup_cons.mp hnd).1 (h ▸ haL)
      have h3 := ih (s.ensureReady b) a haL hnd'
      rw [ensureReady_X_ne s hab] at h3
      exact h3

theorem reject_X (s : MLTSampler) (i : ℕ) :
    (s.reject).X i = if (s.X i).lastModificationIteration = s.currentIteration
      then (s.X i).restore else s.X i := rfl

theorem reject_currentIteration (s : MLTSampler) :
    (s.reject).currentIteration = s.currentIteration - 1 := rfl

theorem startIteration_X (s : MLTSampler) : (s.startIteration).X = s.X := rfl

theorem startIteration_currentIteration (s : MLTSampler) :
    (s.startIteration).currentIteration = s.currentIteration + 1 := rfl

/-- C5: from any reachable state (no primary sample modified beyond the
current iteration), `StartIteration`, then `EnsureReady` on any set of
indices, then `Reject` leaves every primary sample's value and
last-modification iteration, and the iteration counter, exactly as they
were immediately before `StartIteration`. -/
theorem C5_mlt_reject (s : MLTSampler) (L : List ℕ) (hnd : L.Nodup)
    (hreach : ∀ i, (s.X i).lastModificationIteration ≤ s.currentIteration) :
    (((s.startIteration).mutateAll L).reject).currentIteration = s.currentIteration ∧
    ∀ i : ℕ,
      ((((s.startIteration).mutateAll L).reject).X i).value = (s.X i).value ∧
      ((((s.startIteration).mutateAll L).reject).X i).lastModificationIteration =
        (s.X i).lastModificationIteration := by
  have hci2 : ((s.startIteration).mutateAll L).currentIteration =
      s.currentIteration + 1 :=
    (mutateAll_currentIteration L _).trans (startIteration_currentIteration s)
  constructor
  · rw [reject_currentIteration, hci2]
    omega
  · intro i
    rw [reject_X]
    by_cases hi : i ∈ L
    · obtain ⟨h1, h2, h3⟩ := mutateAll_X_mem L (s.startIteration) i hi hnd
      rw [startIteration_X] at h2 h3
      have hcond : (((s.startIteration).mutateAll L).X i).lastModificationIteration =
          ((s.startIteration).mutateAll L).currentIteration := by
        rw [h1, hci2, startIteration_currentIteration]
      rw [if_pos hcond]
      exact ⟨h2, h3⟩
    · have hX : ((s.startIteration).mutateAll L).X i = s.X i :=
        (mutateAll_X_not_mem L _ i hi).trans (congrFun (startIteration_X s) i)
      have hcond : ¬ ((((s.startIteration).mutateAll L).X i).lastModificationIteration =
          ((s.startIteration).mutateAll L).currentIteration) := by
        rw [hX, hci2]
        have := hreach i
        omega
      rw [if_neg hcond, hX]
      exact ⟨rfl, rfl⟩

theorem C5_witness :
    List.Nodup [0, 2, 5] ∧
    ((((⟨1, ⟨0, 0⟩, 1 / 2, 1 / 2, 3, fun _ => {}, 0, true, 0, 0, 0⟩ :
        MLTSampler).startIteration).mutateAll [0, 2, 5]).reject).currentIteration = 0 :=
  ⟨by decide, (C5_mlt_reject _ [0, 2, 5] (by decide) (fun i => le_rfl)).1⟩

end PbrtSamplers
